import Mathlib

/-!
Shallow embedding of the certificate custom-field validation subsystem
(src/sc/sidechaintypes.cpp) and of the getblocktemplate assembler and
long-poll synchronizer (src/rpc/mining.cpp) of the zen node, together
with theorems settling the frozen claims about this code.

External cryptographic library calls (zendoo_deserialize_field,
zendoo_merkle_root_from_compressed_bytes) are opaque oracles passed as
function parameters.  Bytes are modelled as Nat (values < 256 where it
matters).
-/

set_option autoImplicit false

namespace Zen

/-! ## CZendooCctpLibraryChecker::CheckTypeSizes (sidechaintypes.cpp lines 5-37) -/

/-- Embedding of `CZendooCctpLibraryChecker::CheckTypeSizes`.  The five
compiled-in constants and the five sizes reported by the library are the
arguments; the result is `true` exactly when one of the five `assert`s
fires, i.e. when the process aborts.  Note the source compares
`SC_FIELD_SIZE+1` (not `SC_FIELD_SIZE`) against the library field size
(line 7 of sidechaintypes.cpp). -/
def CheckTypeSizesAborts (scFieldSize scVkSize scProofSize scBvSize scCustomDataMax
    libFieldSize libVkSize libProofSize libBvSize libCustomData : Nat) : Bool :=
  (scFieldSize + 1 != libFieldSize) || (scVkSize != libVkSize) ||
  (scProofSize != libProofSize) || (scBvSize != libBvSize) ||
  (scCustomDataMax != libCustomData)

/-! ## Field elements and configs -/

/-- Modelled from the spec: the compiled-in constant `SC_FIELD_SIZE` (from the
C header, which is not part of this excerpt) giving the fixed byte size of a
serialized field element.  The theorems below depend only on it being a fixed
positive constant, not on the concrete value. -/
def SC_FIELD_SIZE : Nat := 32

/-- `CFieldElement` / `CZendooCctpObject`: a byte-vector container.
`IsNull` holds iff the byte vector is empty (sidechaintypes.cpp line 58). -/
structure CFieldElement where
  byteVector : List Nat
deriving DecidableEq, Repr

/-- `CFieldElement::ByteSize()`. -/
def CFieldElement.ByteSize : Nat := SC_FIELD_SIZE

/-- `CFieldElement::BitSize()` = `ByteSize()*CHAR_BIT`. -/
def CFieldElement.BitSize : Nat := CFieldElement.ByteSize * 8

/-- `CZendooCctpObject::IsNull` (line 58). -/
def CFieldElement.IsNull (fe : CFieldElement) : Bool := fe.byteVector.isEmpty

/-- `CFieldElement::CFieldElement(const wrappedFieldPtr&)` (lines 101-106):
a `ByteSize()`-byte buffer, zero-initialized, filled by
`zendoo_serialize_field` with the serialization `bs` of the wrapped field. -/
def CFieldElement.ofWrapped (bs : List Nat) : CFieldElement :=
  ⟨bs.take CFieldElement.ByteSize ++ List.replicate (CFieldElement.ByteSize - bs.length) 0⟩

/-- `FieldElementCertificateFieldConfig` (nBits is `int32_t` in the source;
negative values never pass the config validity predicate and are not
modelled).  `operator==` is value equality on `nBits` (spec 4.1: config
equality is value equality), given by `DecidableEq`. -/
structure FieldElementCertificateFieldConfig where
  nBits : Nat
deriving DecidableEq, Repr

/-- `FieldElementCertificateFieldConfig::getBitSize` (lines 229-232). -/
def FieldElementCertificateFieldConfig.getBitSize
    (c : FieldElementCertificateFieldConfig) : Nat := c.nBits

/-- `FieldElementCertificateFieldConfig::IsValid` (lines 218-224). -/
def FieldElementCertificateFieldConfig.cfgIsValid
    (c : FieldElementCertificateFieldConfig) : Bool :=
  0 < c.nBits && c.nBits ≤ CFieldElement.ByteSize * 8

/-- `BitVectorCertificateFieldConfig` (both fields `int32_t` in the source).
`operator==` is value equality on both components. -/
structure BitVectorCertificateFieldConfig where
  bitVectorSizeBits : Nat
  maxCompressedSizeBytes : Nat
deriving DecidableEq, Repr

/-- `BitVectorCertificateFieldConfig::getMaxCompressedSizeBytes`. -/
def BitVectorCertificateFieldConfig.getMaxCompressedSizeBytes
    (c : BitVectorCertificateFieldConfig) : Nat := c.maxCompressedSizeBytes

/-- Modelled from the spec: the protocol constant `SC_BV_SIZE_IN_BYTES` (from
the C header, not part of this excerpt): the fixed expected size of an
uncompressed bit vector.  The theorems depend only on it being a fixed
constant, never derived from a config. -/
def SC_BV_SIZE_IN_BYTES : Nat := 12938

/-! ## Helpers used by GetFieldElement -/

/-- Modelled from the spec (4.1 step 3): helper `getBytesFromBits` declared in
sc/sidechaintypes.h (not part of this excerpt).  Returns
`(bytesNeeded, rem)` where `bytesNeeded = ceil(nbits/8)` and `rem` is the
number of data bits occupying the last byte (`nbits % 8`); the caller treats
`rem = 0` as "no padding check needed". -/
def getBytesFromBits (nbits : Nat) : Nat × Nat :=
  if nbits % 8 = 0 then (nbits / 8, 0) else (nbits / 8 + 1, nbits % 8)

/-- Fuelled trailing-zero-bit counter (8 iterations, one per bit of a byte). -/
def trailingZeroBitsGo : Nat → Nat → Nat
  | 0, _ => 0
  | fuel + 1, v => if v % 2 = 1 then 0 else trailingZeroBitsGo fuel (v / 2) + 1

/-- Modelled from the spec (4.1 step 5): helper `getTrailingZeroBitsInByte`
declared in sc/sidechaintypes.h (not part of this excerpt): the number of
trailing (low-order) zero bits of a byte, 8 for the zero byte. -/
def getTrailingZeroBitsInByte (b : Nat) : Nat := trailingZeroBitsGo 8 b

/-- `vRawData.back()`: the last byte of the raw data (only read when the raw
data is nonempty). -/
def lastByte (raw : List Nat) : Nat := raw.getLast?.getD 0

/-! ## Custom certificate fields -/

/-- `VALIDATION_STATE` of a `CustomCertificateField` (declared in the header;
spec 3: tri-state NotInitialized / Invalid / Valid). -/
inductive ValidationState
  | notInit
  | invalid
  | valid
deriving DecidableEq, Repr

/-- `FieldElementCertificateField`: raw data, owned reference config (nullable),
validation state, cached field element. -/
structure FieldElementCertificateField where
  vRawData : List Nat
  pReferenceCfg : Option FieldElementCertificateFieldConfig
  state : ValidationState
  fieldElement : CFieldElement
deriving DecidableEq, Repr

/-- `FieldElementCertificateField(rawBytes)` (lines 263-264): fresh field,
no reference config, state NotInitialized, Null cached element. -/
def FieldElementCertificateField.ofRaw (raw : List Nat) : FieldElementCertificateField :=
  ⟨raw, none, ValidationState.notInit, ⟨[]⟩⟩

/-- The validation body of `FieldElementCertificateField::GetFieldElement`
(lines 303-345), run on a cache miss: the state is set to INVALID and the
cached element cleared up front (lines 303-304), then size check (313-318),
padding-bit check (320-331), zero-extension (333-334) and deserialization
via the library oracle `d` (336-343).  Returns the resulting cached element,
the resulting validation state, and the count of diagnostic log lines
emitted (`LogPrint` calls; the deserialization-failure branch emits none). -/
def feValidate (d : List Nat → Bool) (raw : List Nat)
    (cfg : FieldElementCertificateFieldConfig) : CFieldElement × ValidationState × Nat :=
  if raw.length ≠ (getBytesFromBits cfg.getBitSize).1 then
    (⟨[]⟩, ValidationState.invalid, 1)
  else if (getBytesFromBits cfg.getBitSize).2 ≠ 0 ∧
      getTrailingZeroBitsInByte (lastByte raw) < 8 - (getBytesFromBits cfg.getBitSize).2 then
    (⟨[]⟩, ValidationState.invalid, 1)
  else if d (List.replicate (CFieldElement.ByteSize - raw.length) 0 ++ raw) then
    (⟨List.replicate (CFieldElement.ByteSize - raw.length) 0 ++ raw⟩, ValidationState.valid, 0)
  else (⟨[]⟩, ValidationState.invalid, 0)

/-- `FieldElementCertificateField::GetFieldElement` (lines 288-346).
`d` is the `zendoo_deserialize_field` oracle (`true` iff deserialization
succeeds).  Returns the returned field element, the updated field object
(the source mutates `this` through logically-const members), and the number
of diagnostic log lines emitted.  On a cache hit (state initialized and
stored reference config equal by value to `cfg`, lines 290-301) the cached
element is returned with no validation; otherwise the old reference config
is discarded, `cfg` is stored, and validation runs from scratch.
(When the state is initialized the source asserts `pReferenceCfg != nullptr`,
an invariant of all reachable states.) -/
def FieldElementCertificateField.GetFieldElement (d : List Nat → Bool)
    (self : FieldElementCertificateField) (cfg : FieldElementCertificateFieldConfig) :
    CFieldElement × FieldElementCertificateField × Nat :=
  if self.state ≠ ValidationState.notInit ∧ self.pReferenceCfg = some cfg then
    (self.fieldElement, self, 0)
  else
    let v := feValidate d self.vRawData cfg
    (v.1, ⟨self.vRawData, some cfg, v.2.1, v.1⟩, v.2.2)

/-- The `assert(cfg.getBitSize() <= CFieldElement::BitSize())` on line 309:
`true` iff the call aborts the process.  The assert sits on the validation
path, after the cache-hit early return. -/
def FieldElementCertificateField.getFieldElementAborts
    (self : FieldElementCertificateField) (cfg : FieldElementCertificateFieldConfig) : Bool :=
  if self.state ≠ ValidationState.notInit ∧ self.pReferenceCfg = some cfg then
    false
  else
    decide (CFieldElement.BitSize < cfg.getBitSize)

/-- `FieldElementCertificateField::IsValid` (lines 283-286). -/
def FieldElementCertificateField.fieldIsValid (d : List Nat → Bool)
    (self : FieldElementCertificateField) (cfg : FieldElementCertificateFieldConfig) : Bool :=
  !((self.GetFieldElement d cfg).1.IsNull)

/-- `BitVectorCertificateField`: raw (compressed) data, owned reference
config, validation state, cached field element. -/
structure BitVectorCertificateField where
  vRawData : List Nat
  pReferenceCfg : Option BitVectorCertificateFieldConfig
  state : ValidationState
  fieldElement : CFieldElement
deriving DecidableEq, Repr

/-- `BitVectorCertificateField(rawBytes)` (lines 349-350). -/
def BitVectorCertificateField.ofRaw (raw : List Nat) : BitVectorCertificateField :=
  ⟨raw, none, ValidationState.notInit, ⟨[]⟩⟩

/-- The validation body of `BitVectorCertificateField::GetFieldElement`
(lines 388-414), run on a cache miss: compressed-size check against the
config bound (391-395, no log line), then
`zendoo_merkle_root_from_compressed_bytes` — oracle `mr`, called with the
compressed bytes and the constant `SC_BV_SIZE_IN_BYTES` as expected
uncompressed size (line 403); `none` models a null returned pointer
(error, one log line, lines 404-410); `some bs` models a field pointer
whose serialization is `bs` (lines 411-412). -/
def bvValidate (mr : List Nat → Nat → Option (List Nat)) (raw : List Nat)
    (cfg : BitVectorCertificateFieldConfig) : CFieldElement × ValidationState × Nat :=
  if raw.length > cfg.getMaxCompressedSizeBytes then
    (⟨[]⟩, ValidationState.invalid, 0)
  else
    match mr raw SC_BV_SIZE_IN_BYTES with
    | none => (⟨[]⟩, ValidationState.invalid, 1)
    | some bs => (CFieldElement.ofWrapped bs, ValidationState.valid, 0)

/-- `BitVectorCertificateField::GetFieldElement` (lines 373-415): same
memoization protocol as the field-element variant (lines 375-386), with the
validation body `bvValidate`. -/
def BitVectorCertificateField.GetFieldElement (mr : List Nat → Nat → Option (List Nat))
    (self : BitVectorCertificateField) (cfg : BitVectorCertificateFieldConfig) :
    CFieldElement × BitVectorCertificateField × Nat :=
  if self.state ≠ ValidationState.notInit ∧ self.pReferenceCfg = some cfg then
    (self.fieldElement, self, 0)
  else
    let v := bvValidate mr self.vRawData cfg
    (v.1, ⟨self.vRawData, some cfg, v.2.1, v.1⟩, v.2.2)

/-- `BitVectorCertificateField::IsValid` (lines 368-371). -/
def BitVectorCertificateField.fieldIsValid (mr : List Nat → Nat → Option (List Nat))
    (self : BitVectorCertificateField) (cfg : BitVectorCertificateFieldConfig) : Bool :=
  !((self.GetFieldElement mr cfg).1.IsNull)

/-! ## getblocktemplate: cached template state machine (mining.cpp lines 609-641) -/

/-- An opaque block template produced by `CreateNewBlockWithKey`
(only its identity matters to the cache logic). -/
structure BlockTemplate where
  tid : Nat
deriving DecidableEq, Repr

/-- The three `static` variables of the template cache (lines 610-612).
`pindexPrev` is the cached tip pointer (`none` = NULL), `nStart` the time
the last build started, `nTransactionsUpdatedLast` the mempool update
counter snapshot, `pblocktemplate` the cached template (`none` = NULL).
Chain tips are identified by `Nat` (pointer identity). -/
structure GbtCache where
  pindexPrev : Option Nat
  nStart : Int
  nTransactionsUpdatedLast : Nat
  pblocktemplate : Option BlockTemplate
deriving DecidableEq, Repr

/-- The "Update block" step of `getblocktemplate` (lines 613-641).
`chainTip` is `chainActive.Tip()`, `mempoolUpdated` is
`mempool.GetTransactionsUpdated()`, `now` is `GetTime()`, and `created` is
the outcome of `CreateNewBlockWithKey` (`none` = failure).  `.error s`
models `throw JSONRPCError(RPC_OUT_OF_MEMORY, ...)` with `s` the static
state left behind by the throw; `.ok s` is normal continuation. -/
def gbtUpdateBlock (cache : GbtCache) (chainTip : Nat) (mempoolUpdated : Nat)
    (now : Int) (created : Option BlockTemplate) : Except GbtCache GbtCache :=
  if cache.pindexPrev ≠ some chainTip ∨
      (mempoolUpdated ≠ cache.nTransactionsUpdatedLast ∧ now - cache.nStart > 5) then
    -- lines 616-629: clear pindexPrev, snapshot counter/tip/time, delete old template
    let building : GbtCache :=
      ⟨none, now, mempoolUpdated, none⟩
    match created with
    | none => Except.error building
    | some t =>
        -- line 640: pindexPrev updated only after CreateNewBlockWithKey succeeded
        Except.ok ⟨some chainTip, now, mempoolUpdated, some t⟩
  else
    Except.ok cache

/-! ## getblocktemplate: longpollid parsing (mining.cpp lines 563-583) -/

/-- The `longpollid` parameter as a `UniValue`: JSON null (or key absent),
a string, or any other JSON value. -/
inductive UniV
  | nullv
  | str (s : List Char)
  | other
deriving DecidableEq, Repr

/-- Modelled from the spec: the value of a hexadecimal digit character
(used by `uint256::SetHex`, which is not part of this excerpt; spec 6:
the first 64 characters are the hex best-block hash). -/
def hexDigitVal (c : Char) : Nat :=
  if '0' ≤ c ∧ c ≤ '9' then c.toNat - '0'.toNat
  else if 'a' ≤ c ∧ c ≤ 'f' then c.toNat - 'a'.toNat + 10
  else if 'A' ≤ c ∧ c ≤ 'F' then c.toNat - 'A'.toNat + 10
  else 0

/-- Modelled from the spec: the number denoted by a sequence of hex digits. -/
def hexToNat (cs : List Char) : Nat :=
  cs.foldl (fun acc c => acc * 16 + hexDigitVal c) 0

/-- Modelled from the spec: `atoi64` (not part of this excerpt) on a decimal
string: the value of the leading run of decimal digits, 0 if none. -/
def decToNat (cs : List Char) : Nat :=
  (cs.takeWhile fun c => '0' ≤ c ∧ c ≤ '9').foldl
    (fun acc c => acc * 10 + (c.toNat - '0'.toNat)) 0

/-- Parsing of a string `longpollid` (lines 572-576): the first 64 characters
via `SetHex`, the remainder via `atoi64`.  `std::string::substr(64)` throws
`out_of_range` when the string is shorter than 64 characters, modelled as
`none`. -/
def parseLongpollId (s : List Char) : Option (Nat × Nat) :=
  if s.length < 64 then none
  else some (hexToNat (s.take 64), decToNat (s.drop 64))

/-- The watch state the long-poll section ends up in. -/
inductive LPWatch
  | noWait
  | parseError
  | watch (hash : Nat) (count : Nat)
deriving DecidableEq, Repr

/-- The long-poll entry decision of `getblocktemplate` (lines 563-583):
when `lpval` is null (parameter absent or JSON null) the whole wait block
is skipped (`if (!lpval.isNull())`, line 563) and the call proceeds
directly to the template; when `lpval` is a string it is parsed as
64-hex-chars best hash plus decimal counter; any other value watches the
current best hash and current counter (lines 578-583). -/
def longpollWatch (lpval : UniV) (curHash curCount : Nat) : LPWatch :=
  match lpval with
  | UniV.nullv => LPWatch.noWait
  | UniV.str s =>
      match parseLongpollId s with
      | none => LPWatch.parseError
      | some hc => LPWatch.watch hc.1 hc.2
  | UniV.other => LPWatch.watch curHash curCount

/-! ## getblocktemplate: long-poll wait loop (mining.cpp lines 585-607) -/

/-- One iteration's observations of shared state: the tip hash and
`IsRPCRunning()` read at the loop head (line 591), whether
`cvBlockChange.timed_wait` returned by timeout (line 593, `true` = timeout),
and the mempool update counter read after a timeout (line 596). -/
structure LPObs where
  tipHash : Nat
  rpcRunning : Bool
  waitTimedOut : Bool
  mempoolCount : Nat
deriving DecidableEq, Repr

/-- Why the wait loop ended (or `stillWaiting` when the observation list ran
out while the loop would continue — the real loop has no iteration bound). -/
inductive LPExit
  | tipChanged
  | rpcStopped
  | mempoolAdvanced
  | stillWaiting
deriving DecidableEq, Repr

/-- The wait loop (lines 591-600) over a list of per-iteration observations:
exits when the tip hash differs from the watched hash or the RPC subsystem
stops (loop condition keeps `tip == watched && IsRPCRunning()`), or breaks
on a timeout whose re-read mempool counter differs from the watched value;
a timeout with an unchanged counter extends `checktxtime` by 10 seconds and
continues; a plain notification re-checks with an unchanged deadline.
Returns the exit reason, the final `checktxtime` deadline, and the number
of `timed_wait` suspensions performed. -/
def lpWaitLoop (watchedHash watchedCount : Nat) :
    Int → List LPObs → LPExit × Int × Nat
  | t, [] => (LPExit.stillWaiting, t, 0)
  | t, o :: rest =>
    if o.tipHash ≠ watchedHash then (LPExit.tipChanged, t, 0)
    else if o.rpcRunning = false then (LPExit.rpcStopped, t, 0)
    else if o.waitTimedOut ∧ o.mempoolCount ≠ watchedCount then
      (LPExit.mempoolAdvanced, t, 1)
    else
      let r := lpWaitLoop watchedHash watchedCount
        (if o.waitTimedOut then t + 10 else t) rest
      (r.1, r.2.1, r.2.2 + 1)

/-- The initial deadline: `boost::get_system_time() + boost::posix_time::minutes(1)`
(line 588), in seconds. -/
def lpInitialDeadline (now : Int) : Int := now + 60

/-- Externally visible actions of the long-poll section. -/
inductive LPAct
  | leaveCsMain
  | waitStep
  | enterCsMain
  | throwShutdown
  | buildTemplate
deriving DecidableEq, Repr

/-- The whole long-poll section (lines 585-607): `LEAVE_CRITICAL_SECTION(cs_main)`
(line 586), the wait loop, `ENTER_CRITICAL_SECTION(cs_main)` (line 602), then
`if (!IsRPCRunning()) throw JSONRPCError(..., "Shutting down")` (lines
604-605) with `rpcRunningAfter` the final `IsRPCRunning()` reading, else the
call proceeds to build the template.  Returns the action trace and the loop
exit reason. -/
def longpollRun (watchedHash watchedCount : Nat) (now : Int) (obs : List LPObs)
    (rpcRunningAfter : Bool) : List LPAct × LPExit :=
  let r := lpWaitLoop watchedHash watchedCount (lpInitialDeadline now) obs
  (LPAct.leaveCsMain ::
    (List.replicate r.2.2 LPAct.waitStep ++
      [LPAct.enterCsMain,
        if rpcRunningAfter then LPAct.buildTemplate else LPAct.throwShutdown]),
    r.1)

/-! ## getblocktemplate: the static mutable array (mining.cpp lines 701-711) -/

/-- Entries pushed into the `aMutable` array (string literals in the source,
pairwise distinct, modelled as tags). -/
inductive MutEntry
  | time
  | transactions
  | certificates
  | prevblock
deriving DecidableEq, Repr

/-- One call's effect on the `static UniValue aMutable` (lines 701-711): the
array is filled only when still empty — on the first template-mode call —
pushing `time`, `transactions`, `certificates` only when `certSupported`
held at that call (line 500), and `prevblock`; later calls reuse it as is. -/
def gbtMutableStep (aMutable : List MutEntry) (certSupported : Bool) : List MutEntry :=
  if aMutable.isEmpty then
    [MutEntry.time, MutEntry.transactions] ++
      (if certSupported then [MutEntry.certificates] else []) ++ [MutEntry.prevblock]
  else aMutable

/-- The `aMutable` static after a sequence of template-mode calls whose
per-call `certSupported` flags are `calls` (process start: empty array). -/
def gbtMutableAfter (calls : List Bool) : List MutEntry :=
  calls.foldl gbtMutableStep []

/-! ## getblocktemplate: dispatch and preconditions (mining.cpp lines 486-559) -/

/-- Node environment consulted by the precondition checks: whether
`-mineraddress` is set (line 489), whether the wallet is available
(`pwalletMain`, line 491, wallet-enabled build), whether any peer is
connected (`!vNodes.empty()`, line 555) and `IsInitialBlockDownload()`
(line 558). -/
structure GbtEnv where
  minerAddressSet : Bool
  walletAvailable : Bool
  hasPeers : Bool
  inInitialBlockDownload : Bool
deriving DecidableEq, Repr

/-- The content of the `mode` string when present (the source compares it
against the literals "proposal" and "template"; other strings are a third
class). -/
inductive ModeStr
  | template
  | proposal
  | otherStr
deriving DecidableEq, Repr

/-- The value of the `mode` key of the request object: JSON null / absent,
a string, or any other JSON value (which is an invalid-parameter error,
line 517). -/
inductive ModeVal
  | nullv
  | str (m : ModeStr)
  | nonString
deriving DecidableEq, Repr

/-- The request as far as the dispatch logic reads it: whether a parameter
object is present (`params.size() > 0`, lines 506-549), the `mode` key, and
whether a proposal's `data` key is a string (line 523). -/
structure GbtParams where
  present : Bool
  mode : ModeVal
  dataIsStr : Bool
deriving DecidableEq, Repr

/-- The classified outcome of the dispatch prefix of `getblocktemplate`
(lines 486-559): the thrown JSON-RPC errors, the return value of the
proposal branch (abstracted as `proposalResult`, covering lines 526-547),
or continuation into the long-poll/template path. -/
inductive GbtOutcome
  | errMethodNotFound
  | errInvalidParamMode
  | errTypeMissingData
  | proposalResult (r : Nat)
  | errNotConnected
  | errInInitialDownload
  | templatePath
deriving DecidableEq, Repr

/-- The dispatch prefix of `getblocktemplate` (lines 486-559), wallet-enabled
build: first the coinbase-destination check (lines 489-497, throws
`RPC_METHOD_NOT_FOUND` when neither `-mineraddress` nor a wallet is
available); then `mode` resolution (lines 502-517: default "template",
non-string non-null is invalid); the proposal branch (lines 520-548,
requires a string `data` key, then returns the proposal evaluation `prop`);
then the mode re-check (lines 551-552); then the peer-connectivity and
initial-block-download checks (lines 555-559), reached only in template
mode. -/
def getblocktemplateDispatch (env : GbtEnv) (p : GbtParams) (prop : Nat) : GbtOutcome :=
  if env.minerAddressSet = false ∧ env.walletAvailable = false then
    GbtOutcome.errMethodNotFound
  else
    let strMode : Option ModeStr :=
      if p.present then
        match p.mode with
        | ModeVal.nullv => some ModeStr.template
        | ModeVal.str m => some m
        | ModeVal.nonString => none
      else some ModeStr.template
    match strMode with
    | none => GbtOutcome.errInvalidParamMode
    | some m =>
      if p.present ∧ m = ModeStr.proposal then
        if p.dataIsStr = false then GbtOutcome.errTypeMissingData
        else GbtOutcome.proposalResult prop
      else if m ≠ ModeStr.template then GbtOutcome.errInvalidParamMode
      else if env.hasPeers = false then GbtOutcome.errNotConnected
      else if env.inInitialBlockDownload then GbtOutcome.errInInitialDownload
      else GbtOutcome.templatePath

/-! ## Helper lemmas -/

theorem isEmpty_false_of_length_pos {α : Type} (l : List α) (h : 0 < l.length) :
    l.isEmpty = false := by
  cases l with
  | nil => simp at h
  | cons a t => rfl

theorem ofWrapped_isNull_false (bs : List Nat) :
    (CFieldElement.ofWrapped bs).IsNull = false := by
  apply isEmpty_false_of_length_pos
  simp [CFieldElement.ofWrapped, CFieldElement.ByteSize, SC_FIELD_SIZE]
  omega

/-- On a cache miss, `GetFieldElement` runs `feValidate` and stores the new
reference config, state and element. -/
theorem fe_getFieldElement_miss (d : List Nat → Bool)
    (fld : FieldElementCertificateField) (cfg : FieldElementCertificateFieldConfig)
    (h : ¬(fld.state ≠ ValidationState.notInit ∧ fld.pReferenceCfg = some cfg)) :
    fld.GetFieldElement d cfg =
      ((feValidate d fld.vRawData cfg).1,
        ⟨fld.vRawData, some cfg, (feValidate d fld.vRawData cfg).2.1,
          (feValidate d fld.vRawData cfg).1⟩,
        (feValidate d fld.vRawData cfg).2.2) := by
  unfold FieldElementCertificateField.GetFieldElement
  rw [if_neg h]

/-- On a cache hit, `GetFieldElement` returns the cached element unchanged. -/
theorem fe_getFieldElement_hit (d : List Nat → Bool)
    (fld : FieldElementCertificateField) (cfg : FieldElementCertificateFieldConfig)
    (h : fld.state ≠ ValidationState.notInit ∧ fld.pReferenceCfg = some cfg) :
    fld.GetFieldElement d cfg = (fld.fieldElement, fld, 0) := by
  unfold FieldElementCertificateField.GetFieldElement
  rw [if_pos h]

theorem bv_getFieldElement_miss (mr : List Nat → Nat → Option (List Nat))
    (fld : BitVectorCertificateField) (cfg : BitVectorCertificateFieldConfig)
    (h : ¬(fld.state ≠ ValidationState.notInit ∧ fld.pReferenceCfg = some cfg)) :
    fld.GetFieldElement mr cfg =
      ((bvValidate mr fld.vRawData cfg).1,
        ⟨fld.vRawData, some cfg, (bvValidate mr fld.vRawData cfg).2.1,
          (bvValidate mr fld.vRawData cfg).1⟩,
        (bvValidate mr fld.vRawData cfg).2.2) := by
  unfold BitVectorCertificateField.GetFieldElement
  rw [if_neg h]

theorem bv_getFieldElement_hit (mr : List Nat → Nat → Option (List Nat))
    (fld : BitVectorCertificateField) (cfg : BitVectorCertificateFieldConfig)
    (h : fld.state ≠ ValidationState.notInit ∧ fld.pReferenceCfg = some cfg) :
    fld.GetFieldElement mr cfg = (fld.fieldElement, fld, 0) := by
  unfold BitVectorCertificateField.GetFieldElement
  rw [if_pos h]

theorem feValidate_state_ne (d : List Nat → Bool) (raw : List Nat)
    (cfg : FieldElementCertificateFieldConfig) :
    (feValidate d raw cfg).2.1 ≠ ValidationState.notInit := by
  unfold feValidate
  split_ifs <;> simp

theorem bvValidate_state_ne (mr : List Nat → Nat → Option (List Nat)) (raw : List Nat)
    (cfg : BitVectorCertificateFieldConfig) :
    (bvValidate mr raw cfg).2.1 ≠ ValidationState.notInit := by
  unfold bvValidate
  split
  · simp
  · split <;> simp

theorem feValidate_log_null (d : List Nat → Bool) (raw : List Nat)
    (cfg : FieldElementCertificateFieldConfig)
    (h : 0 < (feValidate d raw cfg).2.2) :
    (feValidate d raw cfg).1.IsNull = true := by
  unfold feValidate at h ⊢
  split_ifs at h ⊢ <;> simp_all [CFieldElement.IsNull]

theorem bvValidate_log_null (mr : List Nat → Nat → Option (List Nat)) (raw : List Nat)
    (cfg : BitVectorCertificateFieldConfig)
    (h : 0 < (bvValidate mr raw cfg).2.2) :
    (bvValidate mr raw cfg).1.IsNull = true := by
  unfold bvValidate at h ⊢
  by_cases hs : raw.length > cfg.getMaxCompressedSizeBytes
  · rw [if_pos hs] at h
    simp at h
  · rw [if_neg hs] at h ⊢
    cases hmr : mr raw SC_BV_SIZE_IN_BYTES with
    | none => rfl
    | some bs =>
        rw [hmr] at h
        simp at h

/-- After any `GetFieldElement` call the field is initialized, remembers the
config it was called with, caches exactly the returned element, and keeps the
raw data unchanged. -/
theorem fe_after_call (d : List Nat → Bool)
    (fld : FieldElementCertificateField) (cfg : FieldElementCertificateFieldConfig) :
    (fld.GetFieldElement d cfg).2.1.state ≠ ValidationState.notInit
    ∧ (fld.GetFieldElement d cfg).2.1.pReferenceCfg = some cfg
    ∧ (fld.GetFieldElement d cfg).2.1.fieldElement = (fld.GetFieldElement d cfg).1
    ∧ (fld.GetFieldElement d cfg).2.1.vRawData = fld.vRawData := by
  by_cases h : fld.state ≠ ValidationState.notInit ∧ fld.pReferenceCfg = some cfg
  · rw [fe_getFieldElement_hit d fld cfg h]
    exact ⟨h.1, h.2, rfl, rfl⟩
  · rw [fe_getFieldElement_miss d fld cfg h]
    exact ⟨feValidate_state_ne d fld.vRawData cfg, rfl, rfl, rfl⟩

theorem bv_after_call (mr : List Nat → Nat → Option (List Nat))
    (fld : BitVectorCertificateField) (cfg : BitVectorCertificateFieldConfig) :
    (fld.GetFieldElement mr cfg).2.1.state ≠ ValidationState.notInit
    ∧ (fld.GetFieldElement mr cfg).2.1.pReferenceCfg = some cfg
    ∧ (fld.GetFieldElement mr cfg).2.1.fieldElement = (fld.GetFieldElement mr cfg).1
    ∧ (fld.GetFieldElement mr cfg).2.1.vRawData = fld.vRawData := by
  by_cases h : fld.state ≠ ValidationState.notInit ∧ fld.pReferenceCfg = some cfg
  · rw [bv_getFieldElement_hit mr fld cfg h]
    exact ⟨h.1, h.2, rfl, rfl⟩
  · rw [bv_getFieldElement_miss mr fld cfg h]
    exact ⟨bvValidate_state_ne mr fld.vRawData cfg, rfl, rfl, rfl⟩

theorem getMaxCompressed_eq (c : BitVectorCertificateFieldConfig) :
    c.getMaxCompressedSizeBytes = c.maxCompressedSizeBytes := rfl

theorem getBitSize_eq (c : FieldElementCertificateFieldConfig) :
    c.getBitSize = c.nBits := rfl

theorem getBytesFromBits_fst (n : Nat) : (getBytesFromBits n).1 = (n + 7) / 8 := by
  unfold getBytesFromBits
  by_cases hm : n % 8 = 0
  · rw [if_pos hm]
    show n / 8 = (n + 7) / 8
    omega
  · rw [if_neg hm]
    show n / 8 + 1 = (n + 7) / 8
    omega

theorem getBytesFromBits_snd (n : Nat) : (getBytesFromBits n).2 = n % 8 := by
  unfold getBytesFromBits
  by_cases hm : n % 8 = 0
  · rw [if_pos hm]
    show 0 = n % 8
    omega
  · rw [if_neg hm]

theorem trailingZeroBitsGo_two_mul (fuel v : Nat) :
    trailingZeroBitsGo (fuel + 1) (2 * v) = trailingZeroBitsGo fuel v + 1 := by
  simp only [trailingZeroBitsGo]
  rw [if_neg (by omega), Nat.mul_div_cancel_left v (by norm_num)]

theorem trailingZeroBitsGo_odd (fuel m : Nat) :
    trailingZeroBitsGo (fuel + 1) (2 * m + 1) = 0 := by
  simp only [trailingZeroBitsGo]
  rw [if_pos (by omega)]

theorem trailingZeroBitsGo_pow_mul_odd (i m fuel : Nat) (h : i < fuel) :
    trailingZeroBitsGo fuel (2 ^ i * (2 * m + 1)) = i := by
  induction i generalizing fuel with
  | zero =>
      obtain ⟨f, rfl⟩ : ∃ f, fuel = f + 1 := ⟨fuel - 1, by omega⟩
      simpa [pow_zero, one_mul] using trailingZeroBitsGo_odd f m
  | succ i ih =>
      obtain ⟨f, rfl⟩ : ∃ f, fuel = f + 1 := ⟨fuel - 1, by omega⟩
      have he : 2 ^ (i + 1) * (2 * m + 1) = 2 * (2 ^ i * (2 * m + 1)) := by ring
      rw [he, trailingZeroBitsGo_two_mul, ih f (by omega)]

theorem pow_dvd_of_le_trailingZeroBitsGo (fuel v k : Nat) (hk : k ≤ fuel)
    (h : k ≤ trailingZeroBitsGo fuel v) : 2 ^ k ∣ v := by
  induction k generalizing fuel v with
  | zero => simp
  | succ k ih =>
      obtain ⟨f, rfl⟩ : ∃ f, fuel = f + 1 := ⟨fuel - 1, by omega⟩
      by_cases ho : v % 2 = 1
      · have hz : trailingZeroBitsGo (f + 1) v = 0 := by
          simp only [trailingZeroBitsGo]
          rw [if_pos ho]
        rw [hz] at h
        exact absurd h (by omega)
      · have h2 : trailingZeroBitsGo (f + 1) v = trailingZeroBitsGo f (v / 2) + 1 := by
          simp only [trailingZeroBitsGo]
          rw [if_neg ho]
        rw [h2] at h
        obtain ⟨c, hc⟩ := ih f (v / 2) (by omega) (by omega)
        refine ⟨c, ?_⟩
        have hv : v = 2 * (v / 2) := by omega
        rw [hv, hc]
        ring

theorem gbtMutableStep_nonempty (x : MutEntry) (xs : List MutEntry) (b : Bool) :
    gbtMutableStep (x :: xs) b = x :: xs := rfl

theorem foldl_gbtMutableStep_cons (x : MutEntry) (xs : List MutEntry) (cs : List Bool) :
    List.foldl gbtMutableStep (x :: xs) cs = x :: xs := by
  induction cs with
  | nil => rfl
  | cons b bs ih => simpa [gbtMutableStep_nonempty] using ih

/-! ## Claim theorems -/

/-- C1: the claim states that `CheckTypeSizes` aborts iff at least one
library-reported size differs from its compiled-in constant, and returns
normally when every reported size matches.  The code is wrong: line 7 of
sidechaintypes.cpp compares `SC_FIELD_SIZE+1` with the library's field
element size, while its own log message and assert text describe a direct
mismatch check, so when every reported size equals its constant (here with
all five constants matched exactly by the library) the check still fires
the first assert and aborts the process. -/
theorem checkTypeSizes_aborts_on_exact_match :
    CheckTypeSizesAborts 32 1024 771 12938 32 32 1024 771 12938 32 = true := by decide

/-- C5: in template mode the cached block template is rebuilt iff the cached
tip pointer differs from the current tip, or the mempool counter advanced and
more than 5 seconds passed since the last build start; when the condition
fails the cache is returned untouched whatever `CreateNewBlockWithKey` would
produce; on a rebuild, a construction failure throws the out-of-memory error
leaving the cached tip pointer cleared (stale), and on success the cached tip
becomes the captured snapshot only then. -/
theorem gbtUpdateBlock_cache_protocol (cache : GbtCache)
    (chainTip mempoolUpdated : Nat) (now : Int) :
    (¬(cache.pindexPrev ≠ some chainTip ∨
        (mempoolUpdated ≠ cache.nTransactionsUpdatedLast ∧ now - cache.nStart > 5)) →
      ∀ created, gbtUpdateBlock cache chainTip mempoolUpdated now created = Except.ok cache)
    ∧ ((cache.pindexPrev ≠ some chainTip ∨
        (mempoolUpdated ≠ cache.nTransactionsUpdatedLast ∧ now - cache.nStart > 5)) →
      gbtUpdateBlock cache chainTip mempoolUpdated now none =
        Except.error ⟨none, now, mempoolUpdated, none⟩
      ∧ ∀ t, gbtUpdateBlock cache chainTip mempoolUpdated now (some t) =
          Except.ok ⟨some chainTip, now, mempoolUpdated, some t⟩) := by
  constructor
  · intro h created
    unfold gbtUpdateBlock
    rw [if_neg h]
  · intro h
    refine ⟨?_, fun t => ?_⟩ <;> (unfold gbtUpdateBlock; rw [if_pos h])

theorem gbtUpdateBlock_cache_protocol_witness :
    gbtUpdateBlock ⟨none, 0, 0, none⟩ 1 0 0 none = Except.error ⟨none, 0, 0, none⟩
    ∧ gbtUpdateBlock ⟨none, 0, 0, none⟩ 1 0 0 (some ⟨9⟩) =
        Except.ok ⟨some 1, 0, 0, some ⟨9⟩⟩ :=
  ⟨((gbtUpdateBlock_cache_protocol ⟨none, 0, 0, none⟩ 1 0 0).2 (by decide)).1,
    ((gbtUpdateBlock_cache_protocol ⟨none, 0, 0, none⟩ 1 0 0).2 (by decide)).2 ⟨9⟩⟩

/-- C6 counterexample: the claim states that an absent (null) `longpollid`
makes the watch token implicitly the current best hash and mempool counter,
so the call waits for the next change.  The code instead skips the whole
long-poll block when `lpval.isNull()` (line 563 of mining.cpp) and proceeds
immediately to the template: with current hash 7 and counter 9 the watch
state is `noWait`, not `watch 7 9`. -/
theorem longpollWatch_null_counterexample :
    longpollWatch UniV.nullv 7 9 = LPWatch.noWait
    ∧ longpollWatch UniV.nullv 7 9 ≠ LPWatch.watch 7 9 := by decide

/-- C6 amended: when `longpollid` is a string (of at least 64 characters) it
is parsed as a 64-hex-character best-block hash followed by a decimal
mempool counter and that pair is watched; when it is present but neither a
string nor null, the watch token implicitly becomes the current best hash
and current counter; when it is absent or null the wait is skipped entirely
and the call proceeds immediately to the template. -/
theorem longpollWatch_characterization (s : List Char) (curHash curCount : Nat)
    (h : 64 ≤ s.length) :
    longpollWatch (UniV.str s) curHash curCount =
      LPWatch.watch (hexToNat (s.take 64)) (decToNat (s.drop 64))
    ∧ longpollWatch UniV.other curHash curCount = LPWatch.watch curHash curCount
    ∧ longpollWatch UniV.nullv curHash curCount = LPWatch.noWait := by
  refine ⟨?_, rfl, rfl⟩
  have hp : parseLongpollId s = some (hexToNat (s.take 64), decToNat (s.drop 64)) := by
    unfold parseLongpollId
    rw [if_neg (by omega)]
  simp [longpollWatch, hp]

theorem longpollWatch_characterization_witness :
    longpollWatch (UniV.str (List.replicate 64 'a')) 3 4 =
      LPWatch.watch (hexToNat ((List.replicate 64 'a').take 64))
        (decToNat ((List.replicate 64 'a').drop 64))
    ∧ longpollWatch UniV.other 3 4 = LPWatch.watch 3 4
    ∧ longpollWatch UniV.nullv 3 4 = LPWatch.noWait :=
  longpollWatch_characterization (List.replicate 64 'a') 3 4 (by simp)

/-- C9 counterexample: the claim states `mutable[]` contains `certificates`
exactly when sidechain support is active at the time of that call.  The
array is a function-local `static` filled only when empty (lines 701-711 of
mining.cpp): after a first template call with sidechain support inactive, a
second call with support active still returns an array without
`certificates`. -/
theorem gbtMutable_stale_counterexample :
    gbtMutableAfter [false, true] =
      [MutEntry.time, MutEntry.transactions, MutEntry.prevblock]
    ∧ MutEntry.certificates ∉ gbtMutableAfter [false, true] := by decide

/-- C9 amended: on every template-mode call the `mutable[]` array contains
`time`, `transactions` and `prevblock`, and it contains `certificates`
exactly when sidechain support was active at the first template-mode call of
the process (the array is a static built once and never rebuilt). -/
theorem gbtMutable_first_call_decides (c : Bool) (cs : List Bool) :
    MutEntry.time ∈ gbtMutableAfter (c :: cs)
    ∧ MutEntry.transactions ∈ gbtMutableAfter (c :: cs)
    ∧ MutEntry.prevblock ∈ gbtMutableAfter (c :: cs)
    ∧ (MutEntry.certificates ∈ gbtMutableAfter (c :: cs) ↔ c = true) := by
  have hstep : gbtMutableAfter (c :: cs) = gbtMutableStep [] c := by
    show List.foldl gbtMutableStep (gbtMutableStep [] c) cs = gbtMutableStep [] c
    cases c <;> simp [gbtMutableStep, foldl_gbtMutableStep_cons]
  rw [hstep]
  cases c <;> decide

/-- C10: the coinbase-destination check (no `-mineraddress` and no wallet →
`RPC_METHOD_NOT_FOUND`) precedes mode handling, so it rejects proposal-mode
calls even though proposal evaluation builds no template; a proposal call
that passes it is evaluated whatever the peer-connectivity and
initial-block-download state, and the peers / initial-download errors can
only arise for non-proposal requests. -/
theorem getblocktemplate_dispatch_order (env : GbtEnv) (p : GbtParams) (prop : Nat) :
    (env.minerAddressSet = false ∧ env.walletAvailable = false →
      getblocktemplateDispatch env p prop = GbtOutcome.errMethodNotFound)
    ∧ (¬(env.minerAddressSet = false ∧ env.walletAvailable = false) →
      p.present = true → p.mode = ModeVal.str ModeStr.proposal → p.dataIsStr = true →
      ∀ peers ibd : Bool,
        getblocktemplateDispatch ⟨env.minerAddressSet, env.walletAvailable, peers, ibd⟩ p prop =
          GbtOutcome.proposalResult prop)
    ∧ (getblocktemplateDispatch env p prop = GbtOutcome.errNotConnected ∨
        getblocktemplateDispatch env p prop = GbtOutcome.errInInitialDownload →
      ¬(p.present = true ∧ p.mode = ModeVal.str ModeStr.proposal)) := by
  refine ⟨?_, ?_, ?_⟩
  · intro h
    unfold getblocktemplateDispatch
    rw [if_pos h]
  · intro h hp hm hd peers ibd
    unfold getblocktemplateDispatch
    rw [if_neg h]
    simp only [hp, hm, hd]
    simp
  · intro hout ⟨hp, hm⟩
    unfold getblocktemplateDispatch at hout
    by_cases h : env.minerAddressSet = false ∧ env.walletAvailable = false
    · rw [if_pos h] at hout
      rcases hout with hout | hout <;> exact absurd hout (by simp)
    · rw [if_neg h] at hout
      simp only [hp, hm] at hout
      by_cases hd : p.dataIsStr = false <;> simp [hd] at hout

/-- C4: on the validation path (fresh field), `BitVectorCertificateField::GetFieldElement`
returns Null whenever the compressed raw data exceeds the config's
`maxCompressedSizeBytes`, regardless of content and of the library's
behaviour; otherwise the decompress-to-merkle-root library call is consulted
only at the constant expected size `SC_BV_SIZE_IN_BYTES` (so two oracles
agreeing there give the same element, and two configs differing only in
`bitVectorSizeBits` give the same element), returning Null on a library
error and otherwise caching the returned Merkle root as the (non-null)
field element with state Valid. -/
theorem bv_getFieldElement_characterization
    (mr mr' : List Nat → Nat → Option (List Nat)) (raw : List Nat)
    (cfg cfg2 : BitVectorCertificateFieldConfig)
    (hmax : cfg2.maxCompressedSizeBytes = cfg.maxCompressedSizeBytes) :
    (raw.length > cfg.maxCompressedSizeBytes →
      ∀ mrAny : List Nat → Nat → Option (List Nat),
        ((BitVectorCertificateField.ofRaw raw).GetFieldElement mrAny cfg).1.IsNull = true)
    ∧ (raw.length ≤ cfg.maxCompressedSizeBytes → mr raw SC_BV_SIZE_IN_BYTES = none →
        ((BitVectorCertificateField.ofRaw raw).GetFieldElement mr cfg).1.IsNull = true)
    ∧ (∀ bs, raw.length ≤ cfg.maxCompressedSizeBytes →
        mr raw SC_BV_SIZE_IN_BYTES = some bs →
        ((BitVectorCertificateField.ofRaw raw).GetFieldElement mr cfg).1 =
            CFieldElement.ofWrapped bs
          ∧ ((BitVectorCertificateField.ofRaw raw).GetFieldElement mr cfg).2.1.fieldElement =
              CFieldElement.ofWrapped bs
          ∧ ((BitVectorCertificateField.ofRaw raw).GetFieldElement mr cfg).2.1.state =
              ValidationState.valid
          ∧ (CFieldElement.ofWrapped bs).IsNull = false)
    ∧ ((∀ xs, mr xs SC_BV_SIZE_IN_BYTES = mr' xs SC_BV_SIZE_IN_BYTES) →
        ((BitVectorCertificateField.ofRaw raw).GetFieldElement mr cfg).1 =
          ((BitVectorCertificateField.ofRaw raw).GetFieldElement mr' cfg).1)
    ∧ ((BitVectorCertificateField.ofRaw raw).GetFieldElement mr cfg).1 =
        ((BitVectorCertificateField.ofRaw raw).GetFieldElement mr cfg2).1 := by
  have hfresh : ∀ (m : List Nat → Nat → Option (List Nat))
      (c : BitVectorCertificateFieldConfig),
      (BitVectorCertificateField.ofRaw raw).GetFieldElement m c =
        ((bvValidate m raw c).1,
          ⟨raw, some c, (bvValidate m raw c).2.1, (bvValidate m raw c).1⟩,
          (bvValidate m raw c).2.2) :=
    fun m c => bv_getFieldElement_miss m (BitVectorCertificateField.ofRaw raw) c
      (fun hc => hc.1 rfl)
  refine ⟨?_, ?_, ?_, ?_, ?_⟩
  · intro h mrAny
    rw [hfresh mrAny cfg]
    unfold bvValidate
    rw [if_pos (by rw [getMaxCompressed_eq]; exact h)]
    rfl
  · intro h1 h2
    rw [hfresh mr cfg]
    unfold bvValidate
    rw [if_neg (by rw [getMaxCompressed_eq]; omega), h2]
    rfl
  · intro bs h1 h2
    rw [hfresh mr cfg]
    unfold bvValidate
    rw [if_neg (by rw [getMaxCompressed_eq]; omega), h2]
    exact ⟨rfl, rfl, rfl, ofWrapped_isNull_false bs⟩
  · intro hag
    rw [hfresh mr cfg, hfresh mr' cfg]
    unfold bvValidate
    rw [hag raw]
  · rw [hfresh mr cfg, hfresh mr cfg2]
    unfold bvValidate
    rw [getMaxCompressed_eq, getMaxCompressed_eq, hmax]

theorem bv_getFieldElement_characterization_witness :
    ((BitVectorCertificateField.ofRaw (List.replicate 1025 0)).GetFieldElement
        (fun _ _ => none) ⟨2032, 1024⟩).1.IsNull = true :=
  (bv_getFieldElement_characterization (fun _ _ => none) (fun _ _ => none)
      (List.replicate 1025 0) ⟨2032, 1024⟩ ⟨2032, 1024⟩ rfl).1
    (by rw [List.length_replicate]; norm_num) (fun _ _ => none)

/-- C7: the long-poll wait releases cs_main before suspending and reacquires
it afterwards (every wait step in the trace lies between `leaveCsMain` and
`enterCsMain`, and the shutdown error can only be thrown after reacquiring);
the loop starts with a one-minute deadline and exits only when the tip hash
differs from the watched hash, when the RPC subsystem stops, or when a
timeout finds the mempool counter changed; a timeout with an unchanged
counter extends the deadline by 10 seconds and keeps waiting; a plain
notification re-checks without extending; if the RPC subsystem is down when
the wait ends, a shutdown error is raised instead of building a template. -/
theorem longpoll_wait_protocol :
    (∀ (wh wc : Nat) (t : Int) (o : LPObs) (rest : List LPObs),
      (o.tipHash ≠ wh → lpWaitLoop wh wc t (o :: rest) = (LPExit.tipChanged, t, 0))
      ∧ (o.tipHash = wh → o.rpcRunning = false →
          lpWaitLoop wh wc t (o :: rest) = (LPExit.rpcStopped, t, 0))
      ∧ (o.tipHash = wh → o.rpcRunning = true → o.waitTimedOut = true →
          o.mempoolCount ≠ wc →
          lpWaitLoop wh wc t (o :: rest) = (LPExit.mempoolAdvanced, t, 1))
      ∧ (o.tipHash = wh → o.rpcRunning = true → o.waitTimedOut = true →
          o.mempoolCount = wc →
          lpWaitLoop wh wc t (o :: rest) =
            ((lpWaitLoop wh wc (t + 10) rest).1, (lpWaitLoop wh wc (t + 10) rest).2.1,
              (lpWaitLoop wh wc (t + 10) rest).2.2 + 1))
      ∧ (o.tipHash = wh → o.rpcRunning = true → o.waitTimedOut = false →
          lpWaitLoop wh wc t (o :: rest) =
            ((lpWaitLoop wh wc t rest).1, (lpWaitLoop wh wc t rest).2.1,
              (lpWaitLoop wh wc t rest).2.2 + 1)))
    ∧ (∀ now : Int, lpInitialDeadline now = now + 60)
    ∧ (∀ (wh wc : Nat) (now : Int) (obs : List LPObs) (rpcAfter : Bool),
        ∃ k : Nat,
          (longpollRun wh wc now obs rpcAfter).1 =
            LPAct.leaveCsMain :: (List.replicate k LPAct.waitStep ++
              [LPAct.enterCsMain,
                if rpcAfter then LPAct.buildTemplate else LPAct.throwShutdown])
          ∧ (longpollRun wh wc now obs rpcAfter).2 =
              (lpWaitLoop wh wc (now + 60) obs).1) := by
  refine ⟨?_, fun now => rfl, ?_⟩
  · intro wh wc t o rest
    refine ⟨?_, ?_, ?_, ?_, ?_⟩
    · intro h1
      simp [lpWaitLoop, h1]
    · intro h1 h2
      simp [lpWaitLoop, h1, h2]
    · intro h1 h2 h3 h4
      simp [lpWaitLoop, h1, h2, h3, h4]
    · intro h1 h2 h3 h4
      simp [lpWaitLoop, h1, h2, h3, h4]
    · intro h1 h2 h3
      simp [lpWaitLoop, h1, h2, h3]
  · intro wh wc now obs rpcAfter
    exact ⟨(lpWaitLoop wh wc (now + 60) obs).2.2, rfl, rfl⟩

theorem longpoll_wait_protocol_witness :
    lpWaitLoop 5 7 (lpInitialDeadline 0) [⟨5, true, true, 8⟩] =
      (LPExit.mempoolAdvanced, 60, 1) := by
  have h := (longpoll_wait_protocol.1 5 7 (lpInitialDeadline 0)
    ⟨5, true, true, 8⟩ []).2.2.1 rfl rfl rfl (by decide)
  simpa [lpInitialDeadline] using h

/-- The validation body of the field-element variant succeeds exactly when
the raw data has `ceil(nBits/8)` bytes, the reserved low bits of the last
byte are zero when `nBits` is not a multiple of 8, and the zero-extended
buffer deserializes. -/
theorem feValidate_isNull_iff (d : List Nat → Bool) (raw : List Nat)
    (cfg : FieldElementCertificateFieldConfig) (h0 : 0 < cfg.nBits) :
    (feValidate d raw cfg).1.IsNull = false ↔
      (raw.length = (cfg.nBits + 7) / 8
        ∧ (cfg.nBits % 8 ≠ 0 →
            8 * ((cfg.nBits + 7) / 8) - cfg.nBits ≤ getTrailingZeroBitsInByte (lastByte raw))
        ∧ d (List.replicate (CFieldElement.ByteSize - raw.length) 0 ++ raw) = true) := by
  unfold feValidate
  rw [getBitSize_eq, getBytesFromBits_fst, getBytesFromBits_snd]
  by_cases hs : raw.length = (cfg.nBits + 7) / 8
  · rw [if_neg (not_not_intro hs)]
    by_cases hp : cfg.nBits % 8 ≠ 0 ∧
        getTrailingZeroBitsInByte (lastByte raw) < 8 - cfg.nBits % 8
    · rw [if_pos hp]
      have hrhs : ¬(raw.length = (cfg.nBits + 7) / 8
          ∧ (cfg.nBits % 8 ≠ 0 →
              8 * ((cfg.nBits + 7) / 8) - cfg.nBits ≤ getTrailingZeroBitsInByte (lastByte raw))
          ∧ d (List.replicate (CFieldElement.ByteSize - raw.length) 0 ++ raw) = true) := by
        rintro ⟨-, hpad, -⟩
        have h2 := hpad hp.1
        have h3 := hp.2
        omega
      exact iff_of_false (by decide) hrhs
    · rw [if_neg hp]
      by_cases hd : d (List.replicate (CFieldElement.ByteSize - raw.length) 0 ++ raw) = true
      · rw [if_pos hd]
        have hne : raw ≠ [] := by
          intro hnil
          rw [hnil] at hs
          simp at hs
          omega
        have hnn : (List.replicate (CFieldElement.ByteSize - raw.length) 0 ++ raw).isEmpty
            = false := by
          apply isEmpty_false_of_length_pos
          have := List.length_pos.mpr hne
          simp
          omega
        simp only [CFieldElement.IsNull]
        rw [hnn]
        constructor
        · intro
          refine ⟨hs, fun hm => ?_, hd⟩
          have hnb := not_and.mp hp hm
          omega
        · intro
          rfl
      · rw [if_neg hd]
        have hrhs : ¬(raw.length = (cfg.nBits + 7) / 8
            ∧ (cfg.nBits % 8 ≠ 0 →
                8 * ((cfg.nBits + 7) / 8) - cfg.nBits ≤ getTrailingZeroBitsInByte (lastByte raw))
            ∧ d (List.replicate (CFieldElement.ByteSize - raw.length) 0 ++ raw) = true) := by
          rintro ⟨-, -, hd3⟩
          exact hd hd3
        exact iff_of_false (by decide) hrhs
  · rw [if_pos hs]
    have hrhs : ¬(raw.length = (cfg.nBits + 7) / 8
        ∧ (cfg.nBits % 8 ≠ 0 →
            8 * ((cfg.nBits + 7) / 8) - cfg.nBits ≤ getTrailingZeroBitsInByte (lastByte raw))
        ∧ d (List.replicate (CFieldElement.ByteSize - raw.length) 0 ++ raw) = true) :=
      fun hc => hs hc.1
    exact iff_of_false (by decide) hrhs

/-- C2: for a config of bit size `b` (positive and within the field-element
capacity, as asserted by the code), `GetFieldElement` on the raw data is
non-null exactly when the raw data has `ceil(b/8)` bytes, the last byte has
at least `ceil(b/8)*8 - b` trailing zero bits when `b` is not a multiple of
8, and the buffer left-padded with zero bytes to the field-element byte size
deserializes; moreover, flipping any reserved padding bit of the last byte
of validating raw data to 1 makes the result Null. -/
theorem fe_getFieldElement_nonNull_iff (d : List Nat → Bool)
    (cfg : FieldElementCertificateFieldConfig) (raw : List Nat)
    (h0 : 0 < cfg.nBits) (h1 : cfg.nBits ≤ CFieldElement.BitSize) :
    (((FieldElementCertificateField.ofRaw raw).GetFieldElement d cfg).1.IsNull = false ↔
      (raw.length = (cfg.nBits + 7) / 8
        ∧ (cfg.nBits % 8 ≠ 0 →
            8 * ((cfg.nBits + 7) / 8) - cfg.nBits ≤ getTrailingZeroBitsInByte (lastByte raw))
        ∧ d (List.replicate (CFieldElement.ByteSize - raw.length) 0 ++ raw) = true))
    ∧ (∀ i : Nat, i < 8 * ((cfg.nBits + 7) / 8) - cfg.nBits →
        ((FieldElementCertificateField.ofRaw raw).GetFieldElement d cfg).1.IsNull = false →
        ((FieldElementCertificateField.ofRaw
            (raw.dropLast ++ [lastByte raw + 2 ^ i])).GetFieldElement
          d cfg).1.IsNull = true) := by
  have hfresh : ∀ rs : List Nat,
      (FieldElementCertificateField.ofRaw rs).GetFieldElement d cfg =
        ((feValidate d rs cfg).1,
          ⟨rs, some cfg, (feValidate d rs cfg).2.1, (feValidate d rs cfg).1⟩,
          (feValidate d rs cfg).2.2) :=
    fun rs => fe_getFieldElement_miss d (FieldElementCertificateField.ofRaw rs) cfg
      (fun hc => hc.1 rfl)
  constructor
  · rw [hfresh raw]
    exact feValidate_isNull_iff d raw cfg h0
  · intro i hi hnn
    rw [hfresh raw] at hnn
    rw [hfresh (raw.dropLast ++ [lastByte raw + 2 ^ i])]
    obtain ⟨hs, hpad, hd⟩ := (feValidate_isNull_iff d raw cfg h0).mp hnn
    have hm8 : cfg.nBits % 8 ≠ 0 := by omega
    have hpadv : 8 * ((cfg.nBits + 7) / 8) - cfg.nBits ≤
        trailingZeroBitsGo 8 (lastByte raw) := hpad hm8
    have hraw_ne : raw ≠ [] := by
      intro hnil
      rw [hnil] at hs
      simp at hs
      omega
    obtain ⟨m2, hm2⟩ : 2 ^ (i + 1) ∣ lastByte raw :=
      pow_dvd_of_le_trailingZeroBitsGo 8 (lastByte raw) (i + 1) (by omega) (by omega)
    have hflip : lastByte raw + 2 ^ i = 2 ^ i * (2 * m2 + 1) := by
      rw [hm2, pow_succ]
      ring
    have htz : getTrailingZeroBitsInByte (lastByte raw + 2 ^ i) = i := by
      rw [hflip]
      exact trailingZeroBitsGo_pow_mul_odd i m2 8 (by omega)
    have hlen' : (raw.dropLast ++ [lastByte raw + 2 ^ i]).length = raw.length := by
      have := List.length_pos.mpr hraw_ne
      simp [List.length_dropLast]
      omega
    have hlast' : lastByte (raw.dropLast ++ [lastByte raw + 2 ^ i]) =
        lastByte raw + 2 ^ i := by
      unfold lastByte
      rw [List.getLast?_concat]
      rfl
    unfold feValidate
    rw [getBitSize_eq, getBytesFromBits_fst, getBytesFromBits_snd]
    rw [if_neg (by rw [hlen']; exact not_not_intro hs)]
    rw [if_pos ⟨hm8, by rw [hlast', htz]; omega⟩]
    rfl

theorem fe_getFieldElement_nonNull_iff_witness :
    ((FieldElementCertificateField.ofRaw [1]).GetFieldElement
        (fun _ => true) ⟨8⟩).1.IsNull = false :=
  (fe_getFieldElement_nonNull_iff (fun _ => true) ⟨8⟩ [1]
      (by decide) (by decide)).1.mpr ⟨by decide, by decide, rfl⟩

/-- C3: for both custom-field variants, a second `GetFieldElement` call with
a config equal by value to the one already stored returns the cached element
with the field object unchanged and no validation work (the result does not
consult the library oracle at all, so any oracle gives the same outcome and
no log line is emitted); a call with a config differing by value behaves
exactly like a full validation from scratch on the unchanged raw data, and
stores the new config as the reference config. -/
theorem custom_field_memoization :
    (∀ (d d' : List Nat → Bool) (fld : FieldElementCertificateField)
        (cfg cfg' : FieldElementCertificateFieldConfig), cfg' ≠ cfg →
      ((fld.GetFieldElement d cfg).2.1.GetFieldElement d' cfg =
          ((fld.GetFieldElement d cfg).1, (fld.GetFieldElement d cfg).2.1, 0))
      ∧ ((fld.GetFieldElement d cfg).2.1.GetFieldElement d' cfg' =
          (FieldElementCertificateField.ofRaw fld.vRawData).GetFieldElement d' cfg')
      ∧ ((fld.GetFieldElement d cfg).2.1.GetFieldElement d' cfg').2.1.pReferenceCfg =
          some cfg')
    ∧ (∀ (mr mr' : List Nat → Nat → Option (List Nat)) (fld : BitVectorCertificateField)
        (cfg cfg' : BitVectorCertificateFieldConfig), cfg' ≠ cfg →
      ((fld.GetFieldElement mr cfg).2.1.GetFieldElement mr' cfg =
          ((fld.GetFieldElement mr cfg).1, (fld.GetFieldElement mr cfg).2.1, 0))
      ∧ ((fld.GetFieldElement mr cfg).2.1.GetFieldElement mr' cfg' =
          (BitVectorCertificateField.ofRaw fld.vRawData).GetFieldElement mr' cfg')
      ∧ ((fld.GetFieldElement mr cfg).2.1.GetFieldElement mr' cfg').2.1.pReferenceCfg =
          some cfg') := by
  constructor
  · intro d d' fld cfg cfg' hne
    obtain ⟨ha, hb, hc, hd2⟩ := fe_after_call d fld cfg
    have hm1 : ¬((fld.GetFieldElement d cfg).2.1.state ≠ ValidationState.notInit ∧
        (fld.GetFieldElement d cfg).2.1.pReferenceCfg = some cfg') := by
      intro hcon
      rw [hb] at hcon
      exact hne (Option.some.inj hcon.2).symm
    have hm2 : ¬((FieldElementCertificateField.ofRaw fld.vRawData).state ≠
        ValidationState.notInit ∧
        (FieldElementCertificateField.ofRaw fld.vRawData).pReferenceCfg = some cfg') :=
      fun hcon => hcon.1 rfl
    refine ⟨?_, ?_, ?_⟩
    · rw [fe_getFieldElement_hit d' _ cfg ⟨ha, hb⟩, hc]
    · rw [fe_getFieldElement_miss d' _ cfg' hm1, fe_getFieldElement_miss d' _ cfg' hm2, hd2]
      rfl
    · rw [fe_getFieldElement_miss d' _ cfg' hm1]
  · intro mr mr' fld cfg cfg' hne
    obtain ⟨ha, hb, hc, hd2⟩ := bv_after_call mr fld cfg
    have hm1 : ¬((fld.GetFieldElement mr cfg).2.1.state ≠ ValidationState.notInit ∧
        (fld.GetFieldElement mr cfg).2.1.pReferenceCfg = some cfg') := by
      intro hcon
      rw [hb] at hcon
      exact hne (Option.some.inj hcon.2).symm
    have hm2 : ¬((BitVectorCertificateField.ofRaw fld.vRawData).state ≠
        ValidationState.notInit ∧
        (BitVectorCertificateField.ofRaw fld.vRawData).pReferenceCfg = some cfg') :=
      fun hcon => hcon.1 rfl
    refine ⟨?_, ?_, ?_⟩
    · rw [bv_getFieldElement_hit mr' _ cfg ⟨ha, hb⟩, hc]
    · rw [bv_getFieldElement_miss mr' _ cfg' hm1, bv_getFieldElement_miss mr' _ cfg' hm2, hd2]
      rfl
    · rw [bv_getFieldElement_miss mr' _ cfg' hm1]

theorem custom_field_memoization_witness :
    (((FieldElementCertificateField.ofRaw [1]).GetFieldElement
        (fun _ => true) ⟨8⟩).2.1.GetFieldElement (fun _ => false) ⟨8⟩ =
      (((FieldElementCertificateField.ofRaw [1]).GetFieldElement (fun _ => true) ⟨8⟩).1,
        ((FieldElementCertificateField.ofRaw [1]).GetFieldElement (fun _ => true) ⟨8⟩).2.1, 0))
    ∧ (((BitVectorCertificateField.ofRaw [2]).GetFieldElement
        (fun _ _ => none) ⟨2032, 4⟩).2.1.GetFieldElement (fun _ _ => some [3]) ⟨4064, 4⟩ =
      (BitVectorCertificateField.ofRaw [2]).GetFieldElement (fun _ _ => some [3]) ⟨4064, 4⟩) :=
  ⟨(custom_field_memoization.1 (fun _ => true) (fun _ => false)
      (FieldElementCertificateField.ofRaw [1]) ⟨8⟩ ⟨16⟩ (by decide)).1,
    ((custom_field_memoization.2 (fun _ _ => none) (fun _ _ => some [3])
      (BitVectorCertificateField.ofRaw [2]) ⟨2032, 4⟩ ⟨4064, 4⟩ (by decide)).2.1)⟩

/-- C8 counterexample: the claim states `GetFieldElement` never aborts for
any config and emits a diagnostic log line on any validation failure.  Both
parts fail on the field-element variant: a config with bit size 257 (above
the 256-bit field capacity) trips the `assert` on line 309 of
sidechaintypes.cpp and aborts; and a deserialization failure (oracle
rejecting the padded buffer for bit size 8, raw data `[1]`) returns a Null
element with no log line (lines 337-343 log nothing). -/
theorem custom_field_error_handling_counterexample :
    (FieldElementCertificateField.ofRaw [1]).getFieldElementAborts ⟨257⟩ = true
    ∧ ((FieldElementCertificateField.ofRaw [1]).GetFieldElement
        (fun _ => false) ⟨8⟩).1.IsNull = true
    ∧ ((FieldElementCertificateField.ofRaw [1]).GetFieldElement
        (fun _ => false) ⟨8⟩).2.2 = 0 := by
  refine ⟨?_, ?_, ?_⟩ <;> decide

/-- C8 amended: for configs whose bit size is within the field-element bit
capacity, `GetFieldElement` (both variants) returns without throwing or
aborting; callers observe failure only through `IsValid`, which is exactly
the non-nullness of the returned element; and whenever a diagnostic log
line is emitted the returned element is Null (size and padding failures of
the field-element variant and decompression failures of the bit-vector
variant log a line; the field-element deserialization failure and the
bit-vector compressed-size failure return Null silently). -/
theorem custom_field_error_handling (d : List Nat → Bool)
    (mr : List Nat → Nat → Option (List Nat))
    (fld : FieldElementCertificateField) (cfg : FieldElementCertificateFieldConfig)
    (bfld : BitVectorCertificateField) (bcfg : BitVectorCertificateFieldConfig)
    (h : cfg.getBitSize ≤ CFieldElement.BitSize) :
    fld.getFieldElementAborts cfg = false
    ∧ fld.fieldIsValid d cfg = !((fld.GetFieldElement d cfg).1.IsNull)
    ∧ (0 < (fld.GetFieldElement d cfg).2.2 → (fld.GetFieldElement d cfg).1.IsNull = true)
    ∧ bfld.fieldIsValid mr bcfg = !((bfld.GetFieldElement mr bcfg).1.IsNull)
    ∧ (0 < (bfld.GetFieldElement mr bcfg).2.2 →
        (bfld.GetFieldElement mr bcfg).1.IsNull = true) := by
  refine ⟨?_, rfl, ?_, rfl, ?_⟩
  · unfold FieldElementCertificateField.getFieldElementAborts
    split
    · rfl
    · exact decide_eq_false_iff_not.mpr (by omega)
  · by_cases hcache : fld.state ≠ ValidationState.notInit ∧ fld.pReferenceCfg = some cfg
    · rw [fe_getFieldElement_hit d fld cfg hcache]
      intro hlog
      exact absurd hlog (by simp)
    · rw [fe_getFieldElement_miss d fld cfg hcache]
      exact feValidate_log_null d fld.vRawData cfg
  · by_cases hcache : bfld.state ≠ ValidationState.notInit ∧ bfld.pReferenceCfg = some bcfg
    · rw [bv_getFieldElement_hit mr bfld bcfg hcache]
      intro hlog
      exact absurd hlog (by simp)
    · rw [bv_getFieldElement_miss mr bfld bcfg hcache]
      exact bvValidate_log_null mr bfld.vRawData bcfg

theorem custom_field_error_handling_witness :
    (FieldElementCertificateField.ofRaw [1]).getFieldElementAborts ⟨8⟩ = false
    ∧ (0 < ((BitVectorCertificateField.ofRaw [2, 3]).GetFieldElement
          (fun _ _ => none) ⟨2032, 4⟩).2.2 →
        ((BitVectorCertificateField.ofRaw [2, 3]).GetFieldElement
          (fun _ _ => none) ⟨2032, 4⟩).1.IsNull = true) :=
  ⟨(custom_field_error_handling (fun _ => true) (fun _ _ => none)
      (FieldElementCertificateField.ofRaw [1]) ⟨8⟩
      (BitVectorCertificateField.ofRaw [2, 3]) ⟨2032, 4⟩ (by decide)).1,
    (custom_field_error_handling (fun _ => true) (fun _ _ => none)
      (FieldElementCertificateField.ofRaw [1]) ⟨8⟩
      (BitVectorCertificateField.ofRaw [2, 3]) ⟨2032, 4⟩ (by decide)).2.2.2.2⟩

theorem getblocktemplate_dispatch_order_witness :
    getblocktemplateDispatch ⟨true, true, false, true⟩
      ⟨true, ModeVal.str ModeStr.proposal, true⟩ 5 = GbtOutcome.proposalResult 5
    ∧ getblocktemplateDispatch ⟨false, false, true, false⟩
        ⟨true, ModeVal.str ModeStr.proposal, true⟩ 5 = GbtOutcome.errMethodNotFound :=
  ⟨(getblocktemplate_dispatch_order ⟨true, true, false, true⟩
      ⟨true, ModeVal.str ModeStr.proposal, true⟩ 5).2.1 (by simp) rfl rfl rfl false true,
    (getblocktemplate_dispatch_order ⟨false, false, true, false⟩
      ⟨true, ModeVal.str ModeStr.proposal, true⟩ 5).1 ⟨rfl, rfl⟩⟩

end Zen
